import Mathlib

/-!
Verification of the gloss-to-video import scripts of ProjectUnmute
(`scripts/import_wlasl.py` and `scripts/import_wlasl_videos.py`).

The scripts are modelled by a shallow embedding:

* Python strings are `String`; `str.lower()` is modelled for the ASCII
  strings involved by `lowerS`, `str.replace(" ", "")` by `stripSpaces`,
  `str.replace(" ", "_")` by `underscoreName`, `str.replace("_", " ")`
  by `spacify`, and the substring test `a in b` by `strIn`.
* a Python dict in insertion order is an association list with unique keys;
  `d[k] = v` is `dictInsert` (updates the value in place if the key exists,
  appends otherwise, exactly like a Python dict), `d.get(k)` / `k in d` are
  `List.find?` / `List.any` on the list, and `d.items()` iteration order is
  list order.
* the filesystem is a map `FS` from paths to optional file contents.  The
  scripts read sources from the dataset directory and write into the
  `AvatarAssets` directory; these two roots are the two constructors of
  `FsPath`.
* Python truthiness of `video_id` (either `None` or a string, falsy when
  `None` or `""`) is `pyFalsy`.
-/

/-- ASCII model of Python `str.lower` on a single character. -/
def lowerC (c : Char) : Char :=
  if 65 ≤ c.toNat ∧ c.toNat ≤ 90 then Char.ofNat (c.toNat + 32) else c

/-- ASCII model of Python `str.lower`. -/
def lowerS (s : String) : String :=
  String.mk (s.toList.map lowerC)

/-- Python `s.replace(" ", "")`. -/
def stripSpaces (s : String) : String :=
  String.mk (s.toList.filter (fun c => !(c == ' ')))

/-- Python `s.replace(" ", "_")`. -/
def underscoreName (s : String) : String :=
  String.mk (s.toList.map (fun c => if c == ' ' then '_' else c))

/-- Python `s.replace("_", " ")`. -/
def spacify (s : String) : String :=
  String.mk (s.toList.map (fun c => if c == '_' then ' ' else c))

/-- Does `hay` start with `needle`? (helper for the substring test). -/
def leadsWith : List Char → List Char → Bool
  | [], _ => true
  | _ :: _, [] => false
  | a :: as, b :: bs => a == b && leadsWith as bs

/-- Is `n` a contiguous sublist of the second argument? -/
def containsL (n : List Char) : List Char → Bool
  | [] => leadsWith n []
  | c :: cs => leadsWith n (c :: cs) || containsL n cs

/-- Python's substring test `needle in hay`. -/
def strIn (needle hay : String) : Bool :=
  containsL needle.toList hay.toList

/-- Python truthiness of the `video_id` variable in `import_wlasl.py`:
`None` and the empty string are falsy. -/
def pyFalsy : Option String → Bool
  | none => true
  | some s => s == ""

/-- Insert a string into a ≤-sorted list, keeping it sorted
(helper for `sortStr`). -/
def insSorted (x : String) : List String → List String
  | [] => [x]
  | y :: ys => if y < x then y :: insSorted x ys else x :: y :: ys

/-- Python `sorted` on a list of strings (insertion sort; Python sorts
strings by code points, which is the `String` order used here). -/
def sortStr (l : List String) : List String :=
  l.foldr insSorted []

/-- Python dict assignment `d[k] = v` on a dict in insertion order:
if the key is present its value is updated in place, otherwise the pair
is appended at the end. -/
def dictInsert (d : List (String × String)) (k v : String) : List (String × String) :=
  if d.any (fun p => p.1 == k) then d.map (fun p => if p.1 == k then (k, v) else p)
  else d ++ [(k, v)]

/-! ### Filesystem model

Sources live in the scanned dataset directory, destinations in the
`AvatarAssets` output directory; the two are distinct directories
(`videos_path` versus `avatar_assets` in both scripts). -/

/-- A path: either a file in the dataset (source) directory or a file in
the `AvatarAssets` (destination) directory, identified by its name. -/
inductive FsPath where
  | src (name : String)
  | asset (name : String)
deriving DecidableEq

/-- The filesystem: contents of each path, `none` when absent. -/
def FS : Type := FsPath → Option String

/-- Writing a file: `shutil.copy2` truncates/overwrites the destination. -/
def updateFS (fs : FS) (p : FsPath) (c : String) : FS :=
  fun q => if q = p then some c else fs q

/-! ### `import_wlasl.py` -/

/-- TARGET_GLOSSES of `import_wlasl.py`, in source order (a Python `set`
literal; the script iterates `sorted(TARGET_GLOSSES)`). -/
def targetGlossesA : List String :=
  ["hello", "hi", "goodbye", "bye",
   "thank you", "please", "sorry", "excuse",
   "yes", "no", "maybe", "ok",
   "help", "stop", "wait", "go", "come", "sit", "stand",
   "happy", "sad", "angry", "tired", "sick", "hurt", "pain",
   "water", "food", "hungry", "thirsty", "bathroom", "eat", "drink",
   "what", "where", "when", "why", "who", "how", "which",
   "mother", "father", "family", "friend", "brother", "sister",
   "want", "need", "like", "love", "know", "understand",
   "good", "bad", "fine", "cool", "hot", "cold",
   "more", "again", "finish", "done", "now", "later",
   "name", "work", "school", "home", "doctor",
   "open", "close", "big", "small", "all",
   "morning", "night", "day", "week", "year", "today", "tomorrow",
   "red", "blue", "green", "yellow", "black", "white", "orange", "pink", "purple", "brown",
   "one", "two", "three", "four", "five", "six", "seven", "eight", "nine", "ten"]

/-- `sorted(TARGET_GLOSSES)`: the set deduplicates, `sorted` orders. -/
def targetsA : List String :=
  sortStr targetGlossesA.dedup

/-- `target.lower().replace(" ", "")` — the normalised target. -/
def normTargetA (t : String) : String :=
  stripSpaces (lowerS t)

/-- Tier 1 of `import_wlasl.py`: `gloss_to_video.get(target_lower)` —
the normalised target looked up among the keys as stored. -/
def tier1A (idx : List (String × String)) (t : String) : Option String :=
  (idx.find? (fun p => p.1 == normTargetA t)).map (fun p => p.2)

/-- Tier 2 of `import_wlasl.py`: first key equal to the normalised target
after stripping the key's spaces (`target_lower == gloss.replace(" ", "")`). -/
def tier2A (idx : List (String × String)) (t : String) : Option String :=
  (idx.find? (fun p => stripSpaces p.1 == normTargetA t)).map (fun p => p.2)

/-- Tier 3 of `import_wlasl.py`: first key with
`target_lower in gloss or gloss in target_lower`. -/
def tier3A (idx : List (String × String)) (t : String) : Option String :=
  (idx.find? (fun p => strIn (normTargetA t) p.1 || strIn p.1 (normTargetA t))).map (fun p => p.2)

/-- The resolution chain of `import_wlasl.py` (lines 97–119): each tier is
attempted only while `video_id` is falsy, and a falsy final value means
the target is missing. -/
def resolveA (idx : List (String × String)) (t : String) : Option String :=
  let v1 := tier1A idx t
  let v2 := if pyFalsy v1 then tier2A idx t else v1
  let v3 := if pyFalsy v2 then tier3A idx t else v2
  if pyFalsy v3 then none else v3

/-- One JSON entry of `WLASL_v0.3.json`: its gloss and the `video_id`s of
its instances, in file order. -/
def stepA (available : List String) (d : List (String × String)) (entry : String × List String) :
    List (String × String) :=
  match entry.2.find? (fun vid => available.contains vid) with
  | some vid => dictInsert d (lowerS entry.1) vid
  | none => d

/-- The index builder of `import_wlasl.py` (lines 76–88): for each entry the
gloss is lower-cased and mapped to the first instance whose `video_id` is an
available video file; the assignment is a plain dict store. -/
def buildIndexA (available : List String) (data : List (String × List String)) :
    List (String × String) :=
  data.foldl (stepA available) []

/-- Destination filename: `target.lower().replace(" ", "_") + ".mp4"`
(identical in both scripts). -/
def outName (g : String) : String :=
  underscoreName (lowerS g) ++ ".mp4"

/-- The copy loop of `import_wlasl.py` (lines 92–132): returns the
`copied` counter, `copied_list`, `missing`, and the filesystem after all
copies.  A resolved target whose source file does not exist is appended
to `missing` and the loop continues. -/
def runCopyA (idx : List (String × String)) : List String → FS → Nat × List String × List String × FS
  | [], fs => (0, [], [], fs)
  | t :: ts, fs =>
    match resolveA idx t with
    | none =>
      let r := runCopyA idx ts fs
      (r.1, r.2.1, t :: r.2.2.1, r.2.2.2)
    | some vid =>
      match fs (FsPath.src (vid ++ ".mp4")) with
      | some c =>
        let r := runCopyA idx ts (updateFS fs (FsPath.asset (outName t)) c)
        (r.1 + 1, t :: r.2.1, r.2.2.1, r.2.2.2)
      | none =>
        let r := runCopyA idx ts fs
        (r.1, r.2.1, t :: r.2.2.1, r.2.2.2)

/-- The manifest dict of `import_wlasl.py` (lines 145–150). -/
structure Manifest where
  source : String
  count : Nat
  glosses : List String
  missing : List String
deriving DecidableEq

/-- `manifest = {"source": ..., "count": copied, "glosses": sorted(copied_list),
"missing": sorted(missing)}` built from a copy-loop result. -/
def manifestA (r : Nat × List String × List String × FS) : Manifest :=
  { source := "WLASL v0.3", count := r.1, glosses := sortStr r.2.1, missing := sortStr r.2.2.1 }

/-- Content of a written report file: either the JSON manifest or a plain
listing of glosses (one per line). -/
inductive Artifact where
  | manifest (m : Manifest)
  | glossList (glosses : List String)
deriving DecidableEq

/-- The report files written by `import_wlasl.py` (lines 143–160):
`manifest.json` and `_all_available_glosses.txt` (the sorted index keys). -/
def artifactsA (idx : List (String × String)) (r : Nat × List String × List String × FS) :
    List (String × Artifact) :=
  [("manifest.json", Artifact.manifest (manifestA r)),
   ("_all_available_glosses.txt", Artifact.glossList (sortStr (idx.map (fun p => p.1))))]

/-- `main` of `import_wlasl.py` as exit code plus final filesystem.
`jsonOk` is whether `WLASL_v0.3.json` can be opened and parsed (otherwise
the uncaught exception exits non-zero), `manifestWriteOk` / `glossesWriteOk`
whether the two unguarded report writes succeed (a failed `open`/`write`
raises, and `main` has no handler, so the process exits non-zero). -/
def mainA (jsonOk : Bool) (wlaslData : List (String × List String)) (available : List String)
    (fs : FS) (manifestWriteOk glossesWriteOk : Bool) : Nat × FS :=
  if jsonOk then
    let r := runCopyA (buildIndexA available wlaslData) targetsA fs
    if manifestWriteOk then
      if glossesWriteOk then (0, r.2.2.2) else (1, r.2.2.2)
    else (1, r.2.2.2)
  else (1, fs)

/-! ### `import_wlasl_videos.py` -/

/-- TARGET_GLOSSES of `import_wlasl_videos.py`, in source order (a list;
the script iterates it directly). -/
def targetGlossesB : List String :=
  ["hello", "hi", "hey",
   "goodbye", "bye",
   "thank you", "thanks",
   "please", "sorry",
   "yes", "no", "maybe",
   "help", "stop", "wait",
   "love",
   "good", "morning", "night",
   "how", "fine",
   "water", "food", "hungry", "thirsty",
   "bathroom", "pain", "tired",
   "happy", "sad", "angry",
   "name", "what", "where", "when", "why", "who",
   "want", "need", "like",
   "understand", "know",
   "family", "friend", "mother", "father",
   "eat", "drink", "sleep",
   "go", "come", "sit", "stand",
   "open", "close",
   "hot", "cold",
   "big", "small",
   "more", "again",
   "finish", "done"]

/-- The target list `import_wlasl_videos.py` iterates. -/
def targetsB : List String :=
  targetGlossesB

/-- Characters before the last underscore of a list, `none` when there is
no underscore (helper for `rsplitStem`). -/
def beforeLastUS : List Char → Option (List Char)
  | [] => none
  | c :: cs =>
    match beforeLastUS cs with
    | some r => some (c :: r)
    | none => if c == '_' then some [] else none

/-- Python `stem.rsplit("_", 1)[0]`. -/
def rsplitStem (stem : String) : String :=
  match beforeLastUS stem.toList with
  | some r => String.mk r
  | none => stem

/-- Flat-file gloss derivation of `get_video_files`:
`item.stem.rsplit("_", 1)[0].lower().replace("_", " ")`. -/
def glossOfStem (stem : String) : String :=
  spacify (lowerS (rsplitStem stem))

/-- `item.suffix.lower() in [".mp4", ".mov", ".m4v"]`. -/
def isVideoExt (sfx : String) : Bool :=
  [".mp4", ".mov", ".m4v"].contains (lowerS sfx)

/-- A directory entry seen by `get_video_files`: a sub-directory with its
name and the video files found inside (glob order), or a plain file with
its stem and suffix. -/
inductive FsItem where
  | dir (name : String) (videos : List String)
  | file (stem : String) (sfx : String)
deriving DecidableEq

/-- One iteration of `get_video_files` (lines 59–70 of
`import_wlasl_videos.py`): a directory stores its first video under the
underscores-to-spaces, lower-cased directory name (plain dict store); a
video file stores itself under the derived gloss only when the gloss is
not yet present. -/
def stepB (d : List (String × String)) (it : FsItem) : List (String × String) :=
  match it with
  | FsItem.dir name videos =>
    let gloss := spacify (lowerS name)
    match videos with
    | [] => d
    | v :: _ => dictInsert d gloss v
  | FsItem.file stem sfx =>
    if isVideoExt sfx then
      let gloss := glossOfStem stem
      if d.any (fun p => p.1 == gloss) then d else d ++ [(gloss, stem ++ sfx)]
    else d

/-- `get_video_files` of `import_wlasl_videos.py` (lines 55–72). -/
def buildIndexB (items : List FsItem) : List (String × String) :=
  items.foldl stepB []

/-- Exact tier of `import_wlasl_videos.py`: `gloss_lower in available`
with `gloss_lower = gloss.lower()` (spaces are kept). -/
def tierExactB (idx : List (String × String)) (g : String) : Option String :=
  (idx.find? (fun p => p.1 == lowerS g)).map (fun p => p.2)

/-- Substring tier of `import_wlasl_videos.py`:
first key with `gloss_lower in key or key in gloss_lower`. -/
def tierSubB (idx : List (String × String)) (g : String) : Option String :=
  (idx.find? (fun p => strIn (lowerS g) p.1 || strIn p.1 (lowerS g))).map (fun p => p.2)

/-- Resolution of `import_wlasl_videos.py` (lines 110–126): exact tier,
then substring tier; there is no space-insensitive tier. -/
def resolveB (idx : List (String × String)) (g : String) : Option String :=
  match tierExactB idx g with
  | some v => some v
  | none => tierSubB idx g

/-- The copy loop of `import_wlasl_videos.py` (lines 110–134): the first
component is `true` when the loop crashed (`shutil.copy2` on a vanished
source raises an uncaught exception, aborting the whole loop); otherwise
the copied counter, the missing list, and the filesystem after the copies. -/
def runCopyB (idx : List (String × String)) : List String → FS → Bool × Nat × List String × FS
  | [], fs => (false, 0, [], fs)
  | g :: gs, fs =>
    match resolveB idx g with
    | none =>
      let r := runCopyB idx gs fs
      (r.1, r.2.1, g :: r.2.2.1, r.2.2.2)
    | some srcName =>
      match fs (FsPath.src srcName) with
      | none => (true, 0, [], fs)
      | some c =>
        let r := runCopyB idx gs (updateFS fs (FsPath.asset (outName g)) c)
        (r.1, r.2.1 + 1, r.2.2.1, r.2.2.2)

/-- The report files written by `import_wlasl_videos.py` (lines 146–152):
only `_available_glosses.txt`; this script writes no manifest. -/
def artifactsB (idx : List (String × String)) : List (String × Artifact) :=
  [("_available_glosses.txt", Artifact.glossList (sortStr (idx.map (fun p => p.1))))]

/-- `main` of `import_wlasl_videos.py` as exit code plus final filesystem.
`argsGiven` is `len(sys.argv) >= 2`, `pathExists` is `wlasl_path.exists()`
(each failing with `sys.exit(1)`); a crash of the copy loop or a failure of
the unguarded glosses-file write exits non-zero through the uncaught
exception. -/
def mainB (argsGiven pathExists : Bool) (items : List FsItem) (fs : FS)
    (glossesWriteOk : Bool) : Nat × FS :=
  if argsGiven then
    if pathExists then
      let r := runCopyB (buildIndexB items) targetsB fs
      if r.1 then (1, r.2.2.2)
      else if glossesWriteOk then (0, r.2.2.2) else (1, r.2.2.2)
    else (1, fs)
  else (1, fs)

/-! ### Write lists and overlays (for the idempotence proofs) -/

/-- The destination writes performed by the copy loop of `import_wlasl.py`,
as (asset name, content) pairs; all reads are of source paths. -/
def writesA (idx : List (String × String)) (fs : FS) : List String → List (String × String)
  | [] => []
  | t :: ts =>
    match resolveA idx t with
    | none => writesA idx fs ts
    | some vid =>
      match fs (FsPath.src (vid ++ ".mp4")) with
      | some c => (outName t, c) :: writesA idx fs ts
      | none => writesA idx fs ts

/-- The destination writes performed by the copy loop of
`import_wlasl_videos.py` up to a crash (a vanished source aborts the loop). -/
def writesB (idx : List (String × String)) (fs : FS) : List String → List (String × String)
  | [] => []
  | g :: gs =>
    match resolveB idx g with
    | none => writesB idx fs gs
    | some srcName =>
      match fs (FsPath.src srcName) with
      | none => []
      | some c => (outName g, c) :: writesB idx fs gs

/-- Apply a list of asset writes in order. -/
def overlayFS (fs : FS) : List (String × String) → FS
  | [] => fs
  | w :: ws => overlayFS (updateFS fs (FsPath.asset w.1) w.2) ws

/-- The last write of a write list landing on a given path. -/
def lastW : List (String × String) → FsPath → Option String
  | [], _ => none
  | w :: ws, p =>
    match lastW ws p with
    | some c => some c
    | none => if FsPath.asset w.1 = p then some w.2 else none

/-- Index and scenario filesystem of the spec's two-gloss scenario
(claim C1): `{"hello": video_A, "thankyou": video_B}`. -/
def idxC1 : List (String × String) :=
  [("hello", "vidA"), ("thankyou", "vidB")]

/-- Source files for the C1 scenario: the two videos exist. -/
def fsC1 : FS :=
  fun p =>
    if p = FsPath.src "vidA.mp4" then some "contentA"
    else if p = FsPath.src "vidB.mp4" then some "contentB"
    else none


/-! ### Helper lemmas: the dict model -/

/-- A member of `dictInsert d k v` is the inserted pair or a member of `d`. -/
lemma mem_dictInsert {d : List (String × String)} {k v : String} {q : String × String}
    (h : q ∈ dictInsert d k v) : q = (k, v) ∨ q ∈ d := by
  unfold dictInsert at h
  by_cases ha : d.any (fun p => p.1 == k)
  · rw [if_pos ha] at h
    rcases List.mem_map.mp h with ⟨p, hp, he⟩
    by_cases hk : p.1 == k
    · rw [if_pos hk] at he
      exact Or.inl he.symm
    · rw [if_neg hk] at he
      exact Or.inr (he ▸ hp)
  · rw [if_neg ha] at h
    rcases List.mem_append.mp h with h1 | h2
    · exact Or.inr h1
    · exact Or.inl (List.mem_singleton.mp h2)

/-- After a dict store of `(k, v)`, looking up `k` yields `v`. -/
lemma find?_dictInsert_self : ∀ (d : List (String × String)) (k v : String),
    (dictInsert d k v).find? (fun p => p.1 == k) = some (k, v) := by
  intro d
  induction d with
  | nil =>
    intro k v
    simp [dictInsert, List.find?]
  | cons p ps ih =>
    intro k v
    by_cases hp : p.1 == k
    · have ha : (p :: ps).any (fun q => q.1 == k) = true := by
        simp only [List.any_cons, hp, Bool.true_or]
      rw [dictInsert, if_pos ha, List.map_cons, if_pos hp]
      simp [List.find?]
    · by_cases ha : ps.any (fun q => q.1 == k)
      · have ha2 : (p :: ps).any (fun q => q.1 == k) = true := by
          simp only [List.any_cons, ha, Bool.or_true]
        rw [dictInsert, if_pos ha2, List.map_cons, if_neg hp,
          List.find?_cons_of_neg _ (by simpa using hp)]
        have hps := ih k v
        rwa [dictInsert, if_pos ha] at hps
      · have ha2 : ¬((p :: ps).any (fun q => q.1 == k) = true) := by
          simp only [List.any_cons, Bool.or_eq_true, not_or]
          exact ⟨by simpa using hp, by simpa using ha⟩
        rw [dictInsert, if_neg ha2, List.cons_append,
          List.find?_cons_of_neg _ (by simpa using hp)]
        have hps := ih k v
        rwa [dictInsert, if_neg ha] at hps

/-! ### Helper lemmas: `sortStr` -/

/-- Inserting into a list gives a permutation of consing. -/
lemma insSorted_perm (x : String) : ∀ l : List String, List.Perm (insSorted x l) (x :: l) := by
  intro l
  induction l with
  | nil => simp [insSorted]
  | cons y ys ih =>
    unfold insSorted
    by_cases h : y < x
    · rw [if_pos h]
      exact ((ih.cons y).trans (List.Perm.swap x y ys))
    · rw [if_neg h]

/-- `sortStr` permutes its input. -/
lemma sortStr_perm : ∀ l : List String, List.Perm (sortStr l) l := by
  intro l
  induction l with
  | nil => simp [sortStr]
  | cons y ys ih =>
    have : sortStr (y :: ys) = insSorted y (sortStr ys) := rfl
    rw [this]
    exact (insSorted_perm y (sortStr ys)).trans (ih.cons y)

/-- Members of an insertion. -/
lemma mem_insSorted {x z : String} : ∀ {l : List String}, z ∈ insSorted x l → z = x ∨ z ∈ l := by
  intro l h
  have := (insSorted_perm x l).mem_iff.mp h
  simpa using this

/-- Insertion preserves sortedness. -/
lemma insSorted_sorted (x : String) :
    ∀ l : List String, l.Sorted (· ≤ ·) → (insSorted x l).Sorted (· ≤ ·) := by
  intro l
  induction l with
  | nil => intro _; simp [insSorted]
  | cons y ys ih =>
    intro hs
    rcases List.sorted_cons.mp hs with ⟨hy, hys⟩
    unfold insSorted
    by_cases h : y < x
    · rw [if_pos h]
      refine List.sorted_cons.mpr ⟨?_, ih hys⟩
      intro b hb
      rcases mem_insSorted hb with rfl | hb2
      · exact le_of_lt h
      · exact hy b hb2
    · rw [if_neg h]
      refine List.sorted_cons.mpr ⟨?_, hs⟩
      intro b hb
      rcases List.mem_cons.mp hb with rfl | hb2
      · exact le_of_not_lt h
      · exact le_trans (le_of_not_lt h) (hy b hb2)

/-- `sortStr` sorts. -/
lemma sortStr_sorted : ∀ l : List String, (sortStr l).Sorted (· ≤ ·) := by
  intro l
  induction l with
  | nil => simp [sortStr]
  | cons y ys ih => exact insSorted_sorted y (sortStr ys) ih

/-- `sortStr` preserves length. -/
lemma sortStr_length (l : List String) : (sortStr l).length = l.length :=
  (sortStr_perm l).length_eq

/-- The deduplicated, sorted target list of `import_wlasl.py` has no
duplicates. -/
lemma targetsA_nodup : targetsA.Nodup := by
  have h1 : List.Perm targetGlossesA.dedup (sortStr targetGlossesA.dedup) :=
    (sortStr_perm targetGlossesA.dedup).symm
  exact h1.nodup (List.nodup_dedup targetGlossesA)

/-! ### Helper lemmas: the copy loop of `import_wlasl.py` -/

/-- Every target ends up in exactly one of `copied_list` and `missing`:
their concatenation is a permutation of the processed target list. -/
lemma runCopyA_perm (idx : List (String × String)) :
    ∀ (ts : List String) (fs : FS),
      List.Perm ((runCopyA idx ts fs).2.1 ++ (runCopyA idx ts fs).2.2.1) ts := by
  intro ts
  induction ts with
  | nil => intro fs; simp [runCopyA]
  | cons t ts ih =>
    intro fs
    cases hr : resolveA idx t with
    | none =>
      simp only [runCopyA, hr]
      exact List.perm_middle.trans ((ih fs).cons t)
    | some vid =>
      cases hf : fs (FsPath.src (vid ++ ".mp4")) with
      | some c =>
        simp only [runCopyA, hr, hf]
        exact (ih (updateFS fs (FsPath.asset (outName t)) c)).cons t
      | none =>
        simp only [runCopyA, hr, hf]
        exact List.perm_middle.trans ((ih fs).cons t)

/-- The `copied` counter equals the length of `copied_list`. -/
lemma runCopyA_count (idx : List (String × String)) :
    ∀ (ts : List String) (fs : FS),
      (runCopyA idx ts fs).1 = (runCopyA idx ts fs).2.1.length := by
  intro ts
  induction ts with
  | nil => intro fs; simp [runCopyA]
  | cons t ts ih =>
    intro fs
    cases hr : resolveA idx t with
    | none =>
      simp only [runCopyA, hr]
      simpa using ih fs
    | some vid =>
      cases hf : fs (FsPath.src (vid ++ ".mp4")) with
      | some c =>
        simp only [runCopyA, hr, hf]
        simpa using ih (updateFS fs (FsPath.asset (outName t)) c)
      | none =>
        simp only [runCopyA, hr, hf]
        simpa using ih fs

/-! ### Helper lemmas: idempotence machinery -/

/-- Writing an asset never changes a source path. -/
lemma updateFS_src (fs : FS) (a c n : String) :
    updateFS fs (FsPath.asset a) c (FsPath.src n) = fs (FsPath.src n) := by
  unfold updateFS
  rw [if_neg]
  intro h
  exact FsPath.noConfusion h

/-- The write list depends on the filesystem only through source paths. -/
lemma writesA_congr (idx : List (String × String)) :
    ∀ (ts : List String) (fs g : FS),
      (∀ n, g (FsPath.src n) = fs (FsPath.src n)) → writesA idx g ts = writesA idx fs ts := by
  intro ts
  induction ts with
  | nil => intro fs g _; rfl
  | cons t ts ih =>
    intro fs g hag
    cases hr : resolveA idx t with
    | none => simp only [writesA, hr]; exact ih fs g hag
    | some vid =>
      simp only [writesA, hr, hag (vid ++ ".mp4")]
      cases fs (FsPath.src (vid ++ ".mp4")) with
      | none => exact ih fs g hag
      | some c => rw [ih fs g hag]

/-- The copy loop of `import_wlasl.py` leaves every source path unchanged. -/
lemma runCopyA_fs_src (idx : List (String × String)) :
    ∀ (ts : List String) (fs : FS) (n : String),
      (runCopyA idx ts fs).2.2.2 (FsPath.src n) = fs (FsPath.src n) := by
  intro ts
  induction ts with
  | nil => intro fs n; rfl
  | cons t ts ih =>
    intro fs n
    cases hr : resolveA idx t with
    | none => simp only [runCopyA, hr]; exact ih fs n
    | some vid =>
      cases hf : fs (FsPath.src (vid ++ ".mp4")) with
      | none => simp only [runCopyA, hr, hf]; exact ih fs n
      | some c =>
        simp only [runCopyA, hr, hf]
        rw [ih (updateFS fs (FsPath.asset (outName t)) c) n, updateFS_src]

/-- The counter and the two lists of the copy loop depend on the filesystem
only through source paths. -/
lemma runCopyA_stats_congr (idx : List (String × String)) :
    ∀ (ts : List String) (fs g : FS),
      (∀ n, g (FsPath.src n) = fs (FsPath.src n)) →
      (runCopyA idx ts g).1 = (runCopyA idx ts fs).1 ∧
      (runCopyA idx ts g).2.1 = (runCopyA idx ts fs).2.1 ∧
      (runCopyA idx ts g).2.2.1 = (runCopyA idx ts fs).2.2.1 := by
  intro ts
  induction ts with
  | nil => intro fs g _; exact ⟨rfl, rfl, rfl⟩
  | cons t ts ih =>
    intro fs g hag
    cases hr : resolveA idx t with
    | none =>
      simp only [runCopyA, hr]
      rcases ih fs g hag with ⟨h1, h2, h3⟩
      exact ⟨h1, h2, by rw [h3]⟩
    | some vid =>
      cases hf : fs (FsPath.src (vid ++ ".mp4")) with
      | none =>
        simp only [runCopyA, hr, hag (vid ++ ".mp4"), hf]
        rcases ih fs g hag with ⟨h1, h2, h3⟩
        exact ⟨h1, h2, by rw [h3]⟩
      | some c =>
        simp only [runCopyA, hr, hag (vid ++ ".mp4"), hf]
        have hag2 : ∀ n, updateFS g (FsPath.asset (outName t)) c (FsPath.src n) =
            updateFS fs (FsPath.asset (outName t)) c (FsPath.src n) := by
          intro n
          rw [updateFS_src, updateFS_src]
          exact hag n
        rcases ih (updateFS fs (FsPath.asset (outName t)) c)
          (updateFS g (FsPath.asset (outName t)) c) hag2 with ⟨h1, h2, h3⟩
        exact ⟨by rw [h1], by rw [h2], h3⟩

/-- The final filesystem of the copy loop is the original one overlaid with
the loop's write list. -/
lemma runCopyA_fs_eq (idx : List (String × String)) :
    ∀ (ts : List String) (fs : FS),
      (runCopyA idx ts fs).2.2.2 = overlayFS fs (writesA idx fs ts) := by
  intro ts
  induction ts with
  | nil => intro fs; rfl
  | cons t ts ih =>
    intro fs
    cases hr : resolveA idx t with
    | none => simp only [runCopyA, writesA, hr]; exact ih fs
    | some vid =>
      cases hf : fs (FsPath.src (vid ++ ".mp4")) with
      | none => simp only [runCopyA, writesA, hr, hf]; exact ih fs
      | some c =>
        simp only [runCopyA, writesA, hr, hf, overlayFS]
        rw [ih (updateFS fs (FsPath.asset (outName t)) c),
          writesA_congr idx ts fs (updateFS fs (FsPath.asset (outName t)) c)
            (fun n => updateFS_src fs (outName t) c n)]

/-- An overlay never changes a source path. -/
lemma overlayFS_src : ∀ (ws : List (String × String)) (fs : FS) (n : String),
    overlayFS fs ws (FsPath.src n) = fs (FsPath.src n) := by
  intro ws
  induction ws with
  | nil => intro fs n; rfl
  | cons w ws ih =>
    intro fs n
    simp only [overlayFS]
    rw [ih, updateFS_src]

/-- Pointwise value of an overlay: the last write on the path, else the
original content. -/
lemma overlayFS_eval : ∀ (ws : List (String × String)) (fs : FS) (p : FsPath),
    overlayFS fs ws p = match lastW ws p with
      | some c => some c
      | none => fs p := by
  intro ws
  induction ws with
  | nil => intro fs p; rfl
  | cons w ws ih =>
    intro fs p
    simp only [overlayFS, lastW]
    rw [ih]
    cases lastW ws p with
    | some c => rfl
    | none =>
      simp only
      unfold updateFS
      by_cases h : p = FsPath.asset w.1
      · rw [if_pos h, if_pos h.symm]
      · rw [if_neg h, if_neg (fun he => h he.symm)]

/-- Applying the same write list twice is the same as applying it once. -/
lemma overlayFS_idem (ws : List (String × String)) (fs : FS) :
    overlayFS (overlayFS fs ws) ws = overlayFS fs ws := by
  funext p
  rw [overlayFS_eval, overlayFS_eval]
  cases h : lastW ws p with
  | some c => rfl
  | none => rfl

/-- Running the copy loop of `import_wlasl.py` a second time reproduces the
first run exactly. -/
lemma runCopyA_idem (idx : List (String × String)) (ts : List String) (fs : FS) :
    runCopyA idx ts ((runCopyA idx ts fs).2.2.2) = runCopyA idx ts fs := by
  have hag : ∀ n, (runCopyA idx ts fs).2.2.2 (FsPath.src n) = fs (FsPath.src n) :=
    runCopyA_fs_src idx ts fs
  rcases runCopyA_stats_congr idx ts fs ((runCopyA idx ts fs).2.2.2) hag with ⟨h1, h2, h3⟩
  have hfs : (runCopyA idx ts ((runCopyA idx ts fs).2.2.2)).2.2.2 = (runCopyA idx ts fs).2.2.2 := by
    rw [runCopyA_fs_eq idx ts ((runCopyA idx ts fs).2.2.2),
      writesA_congr idx ts fs ((runCopyA idx ts fs).2.2.2) hag,
      runCopyA_fs_eq idx ts fs, overlayFS_idem]
  exact Prod.ext h1 (Prod.ext h2 (Prod.ext h3 hfs))

/-- The write list of `import_wlasl_videos.py` depends on the filesystem
only through source paths. -/
lemma writesB_congr (idx : List (String × String)) :
    ∀ (gs : List String) (fs g : FS),
      (∀ n, g (FsPath.src n) = fs (FsPath.src n)) → writesB idx g gs = writesB idx fs gs := by
  intro gs
  induction gs with
  | nil => intro fs g _; rfl
  | cons t gs ih =>
    intro fs g hag
    cases hr : resolveB idx t with
    | none => simp only [writesB, hr]; exact ih fs g hag
    | some srcName =>
      simp only [writesB, hr, hag srcName]
      cases fs (FsPath.src srcName) with
      | none => rfl
      | some c => rw [ih fs g hag]

/-- The copy loop of `import_wlasl_videos.py` leaves source paths unchanged
(also when it crashes). -/
lemma runCopyB_fs_src (idx : List (String × String)) :
    ∀ (gs : List String) (fs : FS) (n : String),
      (runCopyB idx gs fs).2.2.2 (FsPath.src n) = fs (FsPath.src n) := by
  intro gs
  induction gs with
  | nil => intro fs n; rfl
  | cons t gs ih =>
    intro fs n
    cases hr : resolveB idx t with
    | none => simp only [runCopyB, hr]; exact ih fs n
    | some srcName =>
      cases hf : fs (FsPath.src srcName) with
      | none => simp only [runCopyB, hr, hf]
      | some c =>
        simp only [runCopyB, hr, hf]
        rw [ih (updateFS fs (FsPath.asset (outName t)) c) n, updateFS_src]

/-- The crash flag, counter and missing list of `import_wlasl_videos.py`'s
copy loop depend on the filesystem only through source paths. -/
lemma runCopyB_stats_congr (idx : List (String × String)) :
    ∀ (gs : List String) (fs g : FS),
      (∀ n, g (FsPath.src n) = fs (FsPath.src n)) →
      (runCopyB idx gs g).1 = (runCopyB idx gs fs).1 ∧
      (runCopyB idx gs g).2.1 = (runCopyB idx gs fs).2.1 ∧
      (runCopyB idx gs g).2.2.1 = (runCopyB idx gs fs).2.2.1 := by
  intro gs
  induction gs with
  | nil => intro fs g _; exact ⟨rfl, rfl, rfl⟩
  | cons t gs ih =>
    intro fs g hag
    cases hr : resolveB idx t with
    | none =>
      simp only [runCopyB, hr]
      rcases ih fs g hag with ⟨h1, h2, h3⟩
      exact ⟨h1, h2, by rw [h3]⟩
    | some srcName =>
      cases hf : fs (FsPath.src srcName) with
      | none => simp [runCopyB, hr, hag srcName, hf]
      | some c =>
        simp only [runCopyB, hr, hag srcName, hf]
        have hag2 : ∀ n, updateFS g (FsPath.asset (outName t)) c (FsPath.src n) =
            updateFS fs (FsPath.asset (outName t)) c (FsPath.src n) := by
          intro n
          rw [updateFS_src, updateFS_src]
          exact hag n
        rcases ih (updateFS fs (FsPath.asset (outName t)) c)
          (updateFS g (FsPath.asset (outName t)) c) hag2 with ⟨h1, h2, h3⟩
        exact ⟨h1, by rw [h2], h3⟩

/-- The final filesystem of `import_wlasl_videos.py`'s copy loop is the
original one overlaid with the writes performed before any crash. -/
lemma runCopyB_fs_eq (idx : List (String × String)) :
    ∀ (gs : List String) (fs : FS),
      (runCopyB idx gs fs).2.2.2 = overlayFS fs (writesB idx fs gs) := by
  intro gs
  induction gs with
  | nil => intro fs; rfl
  | cons t gs ih =>
    intro fs
    cases hr : resolveB idx t with
    | none => simp only [runCopyB, writesB, hr]; exact ih fs
    | some srcName =>
      cases hf : fs (FsPath.src srcName) with
      | none => simp only [runCopyB, writesB, hr, hf]; rfl
      | some c =>
        simp only [runCopyB, writesB, hr, hf, overlayFS]
        rw [ih (updateFS fs (FsPath.asset (outName t)) c),
          writesB_congr idx gs fs (updateFS fs (FsPath.asset (outName t)) c)
            (fun n => updateFS_src fs (outName t) c n)]

/-- Running the copy loop of `import_wlasl_videos.py` a second time
reproduces the first run exactly (including its crash flag). -/
lemma runCopyB_idem (idx : List (String × String)) (gs : List String) (fs : FS) :
    runCopyB idx gs ((runCopyB idx gs fs).2.2.2) = runCopyB idx gs fs := by
  have hag : ∀ n, (runCopyB idx gs fs).2.2.2 (FsPath.src n) = fs (FsPath.src n) :=
    runCopyB_fs_src idx gs fs
  rcases runCopyB_stats_congr idx gs fs ((runCopyB idx gs fs).2.2.2) hag with ⟨h1, h2, h3⟩
  have hfs : (runCopyB idx gs ((runCopyB idx gs fs).2.2.2)).2.2.2 = (runCopyB idx gs fs).2.2.2 := by
    rw [runCopyB_fs_eq idx gs ((runCopyB idx gs fs).2.2.2),
      writesB_congr idx gs fs ((runCopyB idx gs fs).2.2.2) hag,
      runCopyB_fs_eq idx gs fs, overlayFS_idem]
  exact Prod.ext h1 (Prod.ext h2 (Prod.ext h3 hfs))

/-! ### Helper lemmas: resolution tiers and exit codes -/

/-- A value produced by any tier lookup is the value of an index entry. -/
lemma find?_map_value {idx : List (String × String)} {f : String × String → Bool} {v : String}
    (h : (idx.find? f).map (fun p => p.2) = some v) : ∃ p ∈ idx, p.2 = v := by
  cases hf : idx.find? f with
  | none => rw [hf] at h; cases h
  | some p =>
    rw [hf] at h
    exact ⟨p, List.mem_of_find?_eq_some hf, Option.some.inj h⟩

/-- A successful exact tier with a non-empty video id decides the
resolution of `import_wlasl.py`. -/
lemma resolveA_of_tier1 {idx : List (String × String)} {t v : String}
    (hv : v ≠ "") (h : tier1A idx t = some v) : resolveA idx t = some v := by
  unfold resolveA
  rw [h]
  simp [pyFalsy, hv]

/-- When the exact tier misses, a successful space-insensitive tier with a
non-empty video id decides the resolution of `import_wlasl.py`. -/
lemma resolveA_of_tier2 {idx : List (String × String)} {t v : String}
    (hv : v ≠ "") (h1 : tier1A idx t = none) (h2 : tier2A idx t = some v) :
    resolveA idx t = some v := by
  unfold resolveA
  rw [h1, h2]
  simp [pyFalsy, hv]

/-- When the first two tiers miss, the resolution of `import_wlasl.py` is
the substring tier's answer (given that index values are non-empty). -/
lemma resolveA_of_tier3 {idx : List (String × String)} {t : String}
    (hvals : ∀ p ∈ idx, p.2 ≠ "") (h1 : tier1A idx t = none) (h2 : tier2A idx t = none) :
    resolveA idx t = tier3A idx t := by
  unfold resolveA
  rw [h1, h2]
  cases h3 : tier3A idx t with
  | none => simp [pyFalsy]
  | some v =>
    rcases find?_map_value h3 with ⟨p, hp, hpv⟩
    have hv : v ≠ "" := hpv ▸ hvals p hp
    simp [pyFalsy, hv]

/-- With non-empty index values, a space-insensitive match guarantees that
`import_wlasl.py` resolves the target. -/
lemma resolveA_ne_none_of_tier2 {idx : List (String × String)} {t : String}
    (hvals : ∀ p ∈ idx, p.2 ≠ "") (h2 : tier2A idx t ≠ none) : resolveA idx t ≠ none := by
  cases h2v : tier2A idx t with
  | none => exact absurd h2v h2
  | some w =>
    rcases find?_map_value h2v with ⟨q, hq, hqw⟩
    have hw : w ≠ "" := hqw ▸ hvals q hq
    cases h1 : tier1A idx t with
    | none => rw [resolveA_of_tier2 hw h1 h2v]; exact Option.some_ne_none w
    | some v =>
      rcases find?_map_value h1 with ⟨p, hp, hpv⟩
      have hv : v ≠ "" := hpv ▸ hvals p hp
      rw [resolveA_of_tier1 hv h1]
      exact Option.some_ne_none v

/-- On an empty index the copy loop of `import_wlasl_videos.py` marks every
target missing and never crashes. -/
lemma runCopyB_nilIdx : ∀ (gs : List String) (fs : FS),
    runCopyB [] gs fs = (false, 0, gs, fs) := by
  intro gs
  induction gs with
  | nil => intro fs; rfl
  | cons g gs ih =>
    intro fs
    simp only [runCopyB, show resolveB [] g = none from rfl]
    rw [ih fs]

/-- Exit code of `import_wlasl.py`: zero exactly when the dataset
description was readable and both report writes succeeded. -/
lemma mainA_exit (j : Bool) (d : List (String × List String)) (a : List String)
    (fs : FS) (wm wg : Bool) :
    (mainA j d a fs wm wg).1 = 0 ↔ (j = true ∧ wm = true ∧ wg = true) := by
  cases j <;> cases wm <;> cases wg <;> simp [mainA]

/-- Exit code of `import_wlasl_videos.py`: zero exactly when the arguments
and input path were present, no copy crashed, and the glosses write
succeeded. -/
lemma mainB_exit (ar pe : Bool) (items : List FsItem) (fs : FS) (wg : Bool) :
    (mainB ar pe items fs wg).1 = 0 ↔
      (ar = true ∧ pe = true ∧ (runCopyB (buildIndexB items) targetsB fs).1 = false ∧ wg = true) := by
  cases ar <;> cases pe <;> cases wg <;>
    cases hc : (runCopyB (buildIndexB items) targetsB fs).1 <;> simp [mainB, hc]

/-- Every key of the index built by `import_wlasl.py` is a lower-cased
string. -/
lemma buildIndexA_keys_lower (available : List String) (data : List (String × List String)) :
    ∀ p ∈ buildIndexA available data, ∃ g, p.1 = lowerS g := by
  have main : ∀ (l : List (String × List String)) (acc : List (String × String)),
      (∀ p ∈ acc, ∃ g, p.1 = lowerS g) →
      ∀ p ∈ l.foldl (stepA available) acc, ∃ g, p.1 = lowerS g := by
    intro l
    induction l with
    | nil => intro acc hacc; simpa using hacc
    | cons e l ih =>
      intro acc hacc p hp
      rw [List.foldl_cons] at hp
      refine ih (stepA available acc e) ?_ p hp
      intro q hq
      unfold stepA at hq
      cases hfind : e.2.find? (fun vid => available.contains vid) with
      | none => rw [hfind] at hq; exact hacc q hq
      | some vid =>
        rw [hfind] at hq
        rcases mem_dictInsert hq with rfl | hq2
        · exact ⟨e.1, rfl⟩
        · exact hacc q hq2
  intro p hp
  exact main data [] (by simp) p hp

/-- Scanning one more item extends the index build by one step. -/
lemma buildIndexB_append_one (items : List FsItem) (x : FsItem) :
    buildIndexB (items ++ [x]) = stepB (buildIndexB items) x := by
  unfold buildIndexB
  rw [List.foldl_append]
  rfl

/-- Reading one more JSON entry extends the index build by one step. -/
lemma buildIndexA_append_one (available : List String) (data : List (String × List String))
    (e : String × List String) :
    buildIndexA available (data ++ [e]) = stepA available (buildIndexA available data) e := by
  unfold buildIndexA
  rw [List.foldl_append]
  rfl

/-! ### Claims -/

/-- Claim C1 (counterexample).  In the scenario
`targets = ["hello", "thank you"]`, `index = {"hello": vidA, "thankyou": vidB}`,
the claim says "thank you" is resolved via the space-insensitive tier and
that both scripts produce both destination files.  In `import_wlasl.py`
the exact-match tier already returns `vidB` (the lookup key is the
space-stripped target), so the space-insensitive tier is never reached;
and `import_wlasl_videos.py` does not resolve "thank you" at all. -/
theorem claim_C1_counterexample :
    tier1A idxC1 "thank you" = some "vidB" ∧ resolveB idxC1 "thank you" = none := by
  decide

/-- Claim C1 (amended).  In `import_wlasl.py` both targets resolve — "hello"
to `vidA` and "thank you" to `vidB`, both via the exact-match tier (whose
lookup key strips the target's spaces) — and the copier writes `hello.mp4`
and `thank_you.mp4`.  In `import_wlasl_videos.py` "hello" resolves exactly
but "thank you" is missing (no space-insensitive tier, and neither string
is a substring of the other). -/
theorem claim_C1_amended :
    tier1A idxC1 "hello" = some "vidA" ∧
    tier1A idxC1 "thank you" = some "vidB" ∧
    resolveA idxC1 "hello" = some "vidA" ∧
    resolveA idxC1 "thank you" = some "vidB" ∧
    outName "hello" = "hello.mp4" ∧
    outName "thank you" = "thank_you.mp4" ∧
    (runCopyA idxC1 ["hello", "thank you"] fsC1).2.2.2 (FsPath.asset "hello.mp4") = some "contentA" ∧
    (runCopyA idxC1 ["hello", "thank you"] fsC1).2.2.2 (FsPath.asset "thank_you.mp4") =
      some "contentB" ∧
    resolveB idxC1 "hello" = some "vidA" ∧
    resolveB idxC1 "thank you" = none := by
  decide

/-- Claim C2 (counterexample).  `import_wlasl_videos.py` has no
space-insensitive tier: for the index `{"thank you": v}` and target
"thankyou" a space-insensitive comparison matches (as `tier2A` shows),
yet its resolution returns nothing. -/
theorem claim_C2_counterexample :
    resolveB [("thank you", "v")] "thankyou" = none ∧
    tier2A [("thank you", "v")] "thankyou" = some "v" := by
  decide

/-- Claim C2 (amended).  `import_wlasl.py` attempts exact, space-insensitive
and substring tiers in strict order, stopping at the first success (a tier
succeeds when it yields a non-empty video id; index values are non-empty
strings).  `import_wlasl_videos.py` attempts only the exact tier and then
the substring tier.  In both, an exact match takes priority over any
substring match. -/
theorem claim_C2_amended :
    ∀ (idx : List (String × String)) (t : String),
      (∀ p ∈ idx, p.2 ≠ "") →
      ((∀ v, tier1A idx t = some v → resolveA idx t = some v) ∧
       (tier1A idx t = none → ∀ v, tier2A idx t = some v → resolveA idx t = some v) ∧
       (tier1A idx t = none → tier2A idx t = none → resolveA idx t = tier3A idx t) ∧
       (resolveB idx t = match tierExactB idx t with
         | some v => some v
         | none => tierSubB idx t)) := by
  intro idx t hvals
  refine ⟨?_, ?_, resolveA_of_tier3 hvals, rfl⟩
  · intro v h1
    rcases find?_map_value h1 with ⟨p, hp, hpv⟩
    exact resolveA_of_tier1 (hpv ▸ hvals p hp) h1
  · intro h1 v h2
    rcases find?_map_value h2 with ⟨p, hp, hpv⟩
    exact resolveA_of_tier2 (hpv ▸ hvals p hp) h1 h2

/-- Claim C2 (witness).  On the index `[("ab", "1"), ("a", "2")]` the target
"ab" has an exact match ("ab") and a substring match to the different key
"a"; the exact match's video "1" is chosen. -/
theorem claim_C2_witness :
    resolveA [("ab", "1"), ("a", "2")] "ab" = some "1" :=
  (claim_C2_amended [("ab", "1"), ("a", "2")] "ab" (by decide)).1 "1" (by decide)

/-- Claim C3 (counterexample).  Target "thankyou" and index key "thank you"
are equal after lower-casing and space-stripping, yet the exact-match tier
of `import_wlasl.py` fails: the lookup normalises only the target and
compares it against the keys as stored. -/
theorem claim_C3_counterexample :
    stripSpaces (lowerS "thank you") = stripSpaces (lowerS "thankyou") ∧
    tier1A [("thank you", "v")] "thankyou" = none := by
  decide

/-- Claim C3 (amended).  Index keys of `import_wlasl.py` are stored
lower-cased, and the exact tier compares the space-stripped lower-cased
target against the keys as stored — not against space-stripped keys.  A
target and key equal after full normalisation are nevertheless resolved:
the space-insensitive tier matches, so resolution (with non-empty video
ids) succeeds, just not necessarily in the exact tier. -/
theorem claim_C3_amended :
    (∀ (available : List String) (data : List (String × List String)) (p : String × String),
       p ∈ buildIndexA available data → ∃ g, p.1 = lowerS g) ∧
    (∀ (idx : List (String × String)) (t k v : String),
       (k, v) ∈ idx → stripSpaces k = normTargetA t →
       tier2A idx t ≠ none ∧ ((∀ q ∈ idx, q.2 ≠ "") → resolveA idx t ≠ none)) := by
  constructor
  · exact buildIndexA_keys_lower
  · intro idx t k v hkv hnorm
    have h2 : tier2A idx t ≠ none := by
      unfold tier2A
      intro hmapnone
      rw [Option.map_eq_none'] at hmapnone
      have := List.find?_eq_none.mp hmapnone (k, v) hkv
      simp [hnorm] at this
    exact ⟨h2, fun hvals => resolveA_ne_none_of_tier2 hvals h2⟩

/-- Claim C3 (witness).  For index `[("thank you", "v")]` and target
"thankyou" (normalisations equal), `import_wlasl.py` does resolve the
target. -/
theorem claim_C3_witness :
    resolveA [("thank you", "v")] "thankyou" ≠ none :=
  (claim_C3_amended.2 [("thank you", "v")] "thankyou" "thank you" "v"
    (by decide) (by decide)).2 (by decide)

/-- Claim C4 (counterexample).  In `import_wlasl_videos.py` a resolved
target whose source file is gone is not recorded as missing: `shutil.copy2`
raises, the loop aborts (crash flag), the missing list stays empty and the
remaining target "hi" is never processed. -/
theorem claim_C4_counterexample :
    (runCopyB [("hello", "p1")] ["hello", "hi"] (fun _ => none)).1 = true ∧
    (runCopyB [("hello", "p1")] ["hello", "hi"] (fun _ => none)).2.2.1 = [] := by
  decide

/-- Claim C4 (amended).  In `import_wlasl.py` a resolved target whose
source file no longer exists at copy time is recorded as missing and the
loop continues with the remaining targets, leaving the filesystem
untouched; in `import_wlasl_videos.py` the same situation raises an
uncaught exception that aborts the whole loop. -/
theorem claim_C4_amended :
    (∀ (idx : List (String × String)) (fs : FS) (t : String) (ts : List String) (vid : String),
        resolveA idx t = some vid → fs (FsPath.src (vid ++ ".mp4")) = none →
        runCopyA idx (t :: ts) fs =
          ((runCopyA idx ts fs).1, (runCopyA idx ts fs).2.1,
            t :: (runCopyA idx ts fs).2.2.1, (runCopyA idx ts fs).2.2.2)) ∧
    (∀ (idx : List (String × String)) (fs : FS) (g : String) (gs : List String) (s : String),
        resolveB idx g = some s → fs (FsPath.src s) = none →
        runCopyB idx (g :: gs) fs = (true, 0, [], fs)) := by
  constructor
  · intro idx fs t ts vid hr hf
    simp only [runCopyA, hr, hf]
  · intro idx fs g gs s hr hf
    simp only [runCopyB, hr, hf]

/-- Claim C4 (witness).  Concrete instance: target "hello" resolved but its
source absent — `import_wlasl.py` records it missing and finishes,
`import_wlasl_videos.py` crashes. -/
theorem claim_C4_witness :
    runCopyA [("hello", "v1")] ["hello"] (fun _ => none) = (0, [], ["hello"], fun _ => none) ∧
    runCopyB [("hello", "p1")] ["hello"] (fun _ => none) = (true, 0, [], fun _ => none) :=
  ⟨claim_C4_amended.1 [("hello", "v1")] (fun _ => none) "hello" [] "v1" (by decide) rfl,
   claim_C4_amended.2 [("hello", "p1")] (fun _ => none) "hello" [] "p1" (by decide) rfl⟩

/-- Claim C5 (counterexample).  The JSON index builder of `import_wlasl.py`
is last-seen-wins: two entries with gloss "hello" (videos "v1" then "v2",
both available) leave the index mapping "hello" to "v2", not to the
first-seen "v1". -/
theorem claim_C5_counterexample :
    (buildIndexA ["v1", "v2"] [("hello", ["v1"]), ("hello", ["v2"])]).find?
      (fun p => p.1 == "hello") = some ("hello", "v2") := by
  decide

/-- Claim C5 (amended).  In the flat-file layout of
`import_wlasl_videos.py`, the first file seen for a derived gloss wins and
later duplicates are ignored (the index is unchanged).  In the JSON builder
of `import_wlasl.py`, a later entry with the same lower-cased gloss
overwrites the earlier mapping: the index maps the gloss to the video of
the last such entry (within one entry, the first available instance is
used). -/
theorem claim_C5_amended :
    (∀ (items : List FsItem) (stem sfx : String),
        isVideoExt sfx = true →
        (buildIndexB items).any (fun p => p.1 == glossOfStem stem) = true →
        buildIndexB (items ++ [FsItem.file stem sfx]) = buildIndexB items) ∧
    (∀ (available : List String) (data : List (String × List String)) (g : String)
        (vids : List String) (v : String),
        vids.find? (fun vid => available.contains vid) = some v →
        (buildIndexA available (data ++ [(g, vids)])).find? (fun p => p.1 == lowerS g) =
          some (lowerS g, v)) := by
  constructor
  · intro items stem sfx hext hpresent
    rw [buildIndexB_append_one]
    simp only [stepB, hext, if_true, hpresent]
  · intro available data g vids v hfind
    rw [buildIndexA_append_one]
    simp only [stepA, hfind]
    exact find?_dictInsert_self (buildIndexA available data) (lowerS g) v

/-- Claim C5 (witness).  Flat files `go.mp4` then `go_2.mp4` both derive
gloss "go": the second is ignored.  JSON entries ("hello", v1) then
("hello", v2): the final index maps "hello" to "v2". -/
theorem claim_C5_witness :
    buildIndexB ([FsItem.file "go" ".mp4"] ++ [FsItem.file "go_2" ".mp4"]) =
      buildIndexB [FsItem.file "go" ".mp4"] ∧
    (buildIndexA ["v1", "v2"] ([("hello", ["v1"])] ++ [("hello", ["v2"])])).find?
      (fun p => p.1 == lowerS "hello") = some (lowerS "hello", "v2") :=
  ⟨claim_C5_amended.1 [FsItem.file "go" ".mp4"] "go_2" ".mp4" (by decide) (by decide),
   claim_C5_amended.2 ["v1", "v2"] [("hello", ["v1"])] "hello" ["v2"] "v2" (by decide)⟩

/-- Claim C6 (counterexample).  `import_wlasl_videos.py` writes only the
gloss listing: for a one-entry index its report artifacts are exactly one
file, `_available_glosses.txt`, and no manifest. -/
theorem claim_C6_counterexample :
    artifactsB [("hello", "h.mp4")] = [("_available_glosses.txt", Artifact.glossList ["hello"])] := by
  decide

/-- Claim C6 (amended).  After the copy pass, `import_wlasl.py` writes the
two artifacts: `manifest.json` with source tag "WLASL v0.3", count equal to
the copied counter, and the sorted resolved and missing lists; and
`_all_available_glosses.txt` with the index's glosses.
`import_wlasl_videos.py` writes only `_available_glosses.txt`, no
manifest. -/
theorem claim_C6_amended :
    ∀ (idx : List (String × String)) (ts : List String) (fs : FS),
      (artifactsA idx (runCopyA idx ts fs)).map Prod.fst =
        ["manifest.json", "_all_available_glosses.txt"] ∧
      (manifestA (runCopyA idx ts fs)).source = "WLASL v0.3" ∧
      (manifestA (runCopyA idx ts fs)).count = (runCopyA idx ts fs).1 ∧
      List.Sorted (· ≤ ·) (manifestA (runCopyA idx ts fs)).glosses ∧
      List.Sorted (· ≤ ·) (manifestA (runCopyA idx ts fs)).missing ∧
      List.Perm (manifestA (runCopyA idx ts fs)).glosses (runCopyA idx ts fs).2.1 ∧
      List.Perm (manifestA (runCopyA idx ts fs)).missing (runCopyA idx ts fs).2.2.1 ∧
      (artifactsB idx).map Prod.fst = ["_available_glosses.txt"] := by
  intro idx ts fs
  exact ⟨rfl, rfl, rfl, sortStr_sorted _, sortStr_sorted _, sortStr_perm _, sortStr_perm _, rfl⟩

/-- Claim C7 (counterexample).  Two runs of `import_wlasl.py` identical
except for the manifest write failing: the successful one exits zero, the
failing one exits non-zero — a write failure does change the exit status. -/
theorem claim_C7_counterexample :
    (mainA true [] [] (fun _ => none) true true).1 = 0 ∧
    (mainA true [] [] (fun _ => none) false true).1 ≠ 0 := by
  constructor
  · simp [mainA]
  · simp [mainA]

/-- Claim C7 (amended).  The report writes are not guarded: a failure of
the manifest write or the glosses write raises an uncaught exception and
the process exits non-zero, although the copies already performed persist
(the final filesystem is the copy loop's).  Likewise a failing glosses
write in `import_wlasl_videos.py` after a crash-free copy pass. -/
theorem claim_C7_amended :
    ∀ (d : List (String × List String)) (a : List String) (fs : FS) (wg : Bool)
      (items : List FsItem) (fsB : FS),
      (mainA true d a fs false wg).1 = 1 ∧
      (mainA true d a fs false wg).2 = (runCopyA (buildIndexA a d) targetsA fs).2.2.2 ∧
      (mainA true d a fs true false).1 = 1 ∧
      ((runCopyB (buildIndexB items) targetsB fsB).1 = false →
        (mainB true true items fsB false).1 = 1) := by
  intro d a fs wg items fsB
  refine ⟨by simp [mainA], by simp [mainA], by simp [mainA], ?_⟩
  intro hc
  simp [mainB, hc]

/-- Claim C7 (witness).  With an empty dataset the copy passes complete,
and a failing report write still exits both scripts non-zero. -/
theorem claim_C7_witness :
    (mainA true [] [] (fun _ => none) false true).1 = 1 ∧
    (mainB true true [] (fun _ => none) false).1 = 1 :=
  ⟨(claim_C7_amended [] [] (fun _ => none) true [] (fun _ => none)).1,
   (claim_C7_amended [] [] (fun _ => none) true [] (fun _ => none)).2.2.2
     (by rw [show buildIndexB [] = [] from rfl, runCopyB_nilIdx])⟩

/-- Claim C8 (counterexample).  A run of `import_wlasl.py` whose inputs are
all present and readable but whose manifest write fails exits non-zero,
although the claim allows a non-zero exit only for a missing source path or
an unreadable dataset description. -/
theorem claim_C8_counterexample :
    (mainA true [("hello", ["v1"])] ["v1"] (fun _ => none) false true).1 ≠ 0 := by
  simp [mainA]

/-- Claim C8 (amended).  `import_wlasl.py` exits zero iff the dataset
description is readable and both report writes succeed;
`import_wlasl_videos.py` exits zero iff the argument and input path are
present, no copy crashed, and the glosses write succeeds.  Neither exit
code depends on how many glosses went unresolved. -/
theorem claim_C8_amended :
    ∀ (j : Bool) (d : List (String × List String)) (a : List String) (fs : FS) (wm wg : Bool)
      (ar pe : Bool) (items : List FsItem) (fsB : FS) (wgB : Bool),
      ((mainA j d a fs wm wg).1 = 0 ↔ (j = true ∧ wm = true ∧ wg = true)) ∧
      ((mainB ar pe items fsB wgB).1 = 0 ↔
        (ar = true ∧ pe = true ∧ (runCopyB (buildIndexB items) targetsB fsB).1 = false ∧
          wgB = true)) :=
  fun j d a fs wm wg ar pe items fsB wgB =>
    ⟨mainA_exit j d a fs wm wg, mainB_exit ar pe items fsB wgB⟩

/-- Claim C9 (confirmed).  Both copy loops are idempotent: re-running the
loop on the filesystem it produced reproduces the whole result — same
counter, same lists (and crash flag for `import_wlasl_videos.py`), and the
same final filesystem, because all writes go to destination files while all
reads come from source files. -/
theorem claim_C9 :
    ∀ (idxA idxB : List (String × String)) (ts gs : List String) (fs fsB : FS),
      runCopyA idxA ts ((runCopyA idxA ts fs).2.2.2) = runCopyA idxA ts fs ∧
      runCopyB idxB gs ((runCopyB idxB gs fsB).2.2.2) = runCopyB idxB gs fsB :=
  fun idxA idxB ts gs fs fsB => ⟨runCopyA_idem idxA ts fs, runCopyB_idem idxB gs fsB⟩

/-- Claim C10 (confirmed).  After the copy loop of `import_wlasl.py` over
its (deduplicated, sorted) target list, every target is in exactly one of
`copied_list` and `missing`, the `copied` counter equals the length of
`copied_list`, and hence the manifest's count equals the number of glosses
it lists as resolved. -/
theorem claim_C10 :
    ∀ (idx : List (String × String)) (fs : FS),
      (∀ t, t ∈ targetsA ↔
        (t ∈ (runCopyA idx targetsA fs).2.1 ∨ t ∈ (runCopyA idx targetsA fs).2.2.1)) ∧
      (∀ t, ¬(t ∈ (runCopyA idx targetsA fs).2.1 ∧ t ∈ (runCopyA idx targetsA fs).2.2.1)) ∧
      (runCopyA idx targetsA fs).1 = (runCopyA idx targetsA fs).2.1.length ∧
      (manifestA (runCopyA idx targetsA fs)).count =
        (manifestA (runCopyA idx targetsA fs)).glosses.length := by
  intro idx fs
  have hperm := runCopyA_perm idx targetsA fs
  have hnd : ((runCopyA idx targetsA fs).2.1 ++ (runCopyA idx targetsA fs).2.2.1).Nodup :=
    hperm.symm.nodup targetsA_nodup
  rcases List.nodup_append.mp hnd with ⟨-, -, hdisj⟩
  refine ⟨?_, ?_, runCopyA_count idx targetsA fs, ?_⟩
  · intro t
    rw [← List.mem_append]
    exact hperm.mem_iff.symm
  · rintro t ⟨h1, h2⟩
    exact hdisj h1 h2
  · simp only [manifestA]
    rw [sortStr_length]
    exact runCopyA_count idx targetsA fs
